import Mathlib

/-
  Verification of the Rin core HTTP routing framework against its
  natural-language specification.

  The definitions below are a shallow embedding of the TypeScript source:
    - src/server/src/core/router-hono.ts   (HonoRouterAdapter and helpers)
    - src/unnamed/part_006                 (LegacyRouterAdapter, types)
    - src/server/src/core/setup.ts         (deriveAuth, createCookieHelpers)
    - src/server/src/core/router-factory.ts

  JavaScript runtime values are modelled by `JValue`; JS numbers carry
  their non-finite cases through `JsNum` so that `Number.isFinite` and
  `typeof x === 'number'` can be embedded faithfully.  Asynchronous code
  is modelled by sequential evaluation; the request body stream is
  modelled by `RawBody`, an oracle giving the results of the platform
  methods `json()`, `formData()` and `text()`.
-/

set_option autoImplicit false

/-- JS number: a finite value, NaN, or a signed infinity. -/
inductive JsNum where
  | fin : Int → JsNum
  | nan : JsNum
  | inf : JsNum
  | ninf : JsNum
  deriving DecidableEq, Repr

/-- `Number.isFinite`. -/
def JsNum.isFinite : JsNum → Bool
  | .fin _ => true
  | _ => false

/-- A JavaScript runtime value (the fragment the core framework inspects). -/
inductive JValue where
  | vstr : String → JValue
  | vnum : JsNum → JValue
  | vbool : Bool → JValue
  | varr : List JValue → JValue
  | vobj : List (String × JValue) → JValue
  | vnull : JValue

/-- `typeof v === 'object'` (objects, arrays and null). -/
def JValue.isTypeofObject : JValue → Bool
  | .vobj _ => true
  | .varr _ => true
  | .vnull => true
  | _ => false

/-- JS truthiness of a value (only the cases the embedded code branches on). -/
def JValue.truthy : JValue → Bool
  | .vstr s => s ≠ ""
  | .vnum (.fin n) => n ≠ 0
  | .vnum .nan => false
  | .vnum _ => true
  | .vbool b => b
  | .varr _ => true
  | .vobj _ => true
  | .vnull => false

/-- JS truthiness of a `string | undefined` value. -/
def jsTruthy : Option String → Bool
  | none => false
  | some s => s ≠ ""

/-- First-match association lookup, i.e. reading a property of a JS object. -/
def assocFind (l : List (String × JValue)) (key : String) : Option JValue :=
  (l.find? (fun p => p.1 == key)).map (·.2)

/-- `obj[key] = v`: update in place keeping the original key position,
    appending when the key is new. -/
def setKey (l : List (String × JValue)) (k : String) (v : JValue) :
    List (String × JValue) :=
  match l with
  | [] => [(k, v)]
  | (k', v') :: rest =>
    if k' = k then (k', v) :: rest else (k', v') :: setKey rest k v

/-- Same as `setKey` for string-valued maps. -/
def setKeyStr (l : List (String × String)) (k v : String) :
    List (String × String) :=
  match l with
  | [] => [(k, v)]
  | (k', v') :: rest =>
    if k' = k then (k', v) :: rest else (k', v') :: setKeyStr rest k v

/-- Lookup in a string-valued map. -/
def lookupStr (l : List (String × String)) (k : String) : Option String :=
  (l.find? (fun p => p.1 == k)).map (·.2)

/-- Is the first character list a prefix of the second?  (Structured so
    the first argument is matched first, letting the kernel reduce calls
    whose second argument has an opaque tail.) -/
def charsPrefix : List Char → List Char → Bool
  | [], _ => true
  | _ :: _, [] => false
  | a :: as, b :: bs => (a == b) && charsPrefix as bs

/-- `s.includes(pat)` on JS strings. -/
def jsIncludes (s pat : String) : Bool :=
  (s.data.tails).any (fun t => charsPrefix pat.data t)

/-- Split a character list at every occurrence of `sep` (structural, so
    the kernel can evaluate it; `String.splitOn` cannot be reduced). -/
def splitChars (sep : Char) : List Char → List (List Char)
  | [] => [[]]
  | c :: rest =>
    let r := splitChars sep rest
    if c = sep then [] :: r
    else match r with
      | h :: t => (c :: h) :: t
      | [] => [[c]]

/-- JS `s.split(sep)` for a one-character separator. -/
def strSplit (s : String) (sep : Char) : List String :=
  (splitChars sep s.data).map String.mk

/-- JS `s.startsWith(pat)`. -/
def strStartsWith (s pat : String) : Bool := charsPrefix pat.data s.data

/-- JS `s.substring(n)` / `s.slice(n)`. -/
def strDrop (s : String) (n : Nat) : String := String.mk (s.data.drop n)

/-- JS `s.toLowerCase()` (ASCII, which is all header names use). -/
def strToLower (s : String) : String := String.mk (s.data.map Char.toLower)

/-- JS `array.join(sep)`. -/
def strJoinSep (sep : String) : List String → String
  | [] => ""
  | [x] => x
  | x :: xs => x ++ sep ++ strJoinSep sep xs

/-- Is `c` JS whitespace (the characters `String.prototype.trim` strips)? -/
def isJsWs (c : Char) : Bool :=
  c = ' ' ∨ c = '\t' ∨ c = '\n' ∨ c = '\r' ∨ c = '\x0b' ∨ c = '\x0c'

/-- JS `s.trim()`. -/
def strTrim (s : String) : String :=
  String.mk (((s.data.dropWhile isJsWs).reverse.dropWhile isJsWs).reverse)

/-- Value of a hexadecimal digit. -/
def hexVal (c : Char) : Option Nat :=
  if '0' ≤ c ∧ c ≤ '9' then some (c.toNat - '0'.toNat)
  else if 'a' ≤ c ∧ c ≤ 'f' then some (c.toNat - 'a'.toNat + 10)
  else if 'A' ≤ c ∧ c ≤ 'F' then some (c.toNat - 'A'.toNat + 10)
  else none

/-- A token of a percent-encoded string: a literal character or an
    escaped byte. -/
inductive PctTok where
  | chr : Char → PctTok
  | byte : Nat → PctTok

/-- Split a character list into percent-escape tokens; a `%` not followed
    by two hex digits is a malformed escape (URIError). -/
def pctTokens : List Char → Option (List PctTok)
  | [] => some []
  | '%' :: h1 :: h2 :: rest =>
    match hexVal h1, hexVal h2 with
    | some a, some b => (pctTokens rest).map (PctTok.byte (16 * a + b) :: ·)
    | _, _ => none
  | '%' :: _ :: [] => none
  | '%' :: [] => none
  | c :: rest => if c = '%' then none else (pctTokens rest).map (PctTok.chr c :: ·)

/-- Is `b` a UTF-8 continuation byte? -/
def isCont (b : Nat) : Bool := 0x80 ≤ b ∧ b < 0xC0

/-- Reassemble tokens, decoding escaped byte runs as strict UTF-8
    (overlong encodings, surrogates and out-of-range code points are
    rejected, as `decodeURIComponent` does). -/
def pctAssemble : List PctTok → Option (List Char)
  | [] => some []
  | .chr c :: rest => (pctAssemble rest).map (c :: ·)
  | .byte b :: rest =>
    if b < 0x80 then (pctAssemble rest).map (Char.ofNat b :: ·)
    else if b < 0xC0 then none
    else if b < 0xE0 then
      match rest with
      | .byte c1 :: rest' =>
        let cp := (b - 0xC0) * 64 + (c1 - 0x80)
        if isCont c1 ∧ 0x80 ≤ cp then
          (pctAssemble rest').map (Char.ofNat cp :: ·)
        else none
      | _ => none
    else if b < 0xF0 then
      match rest with
      | .byte c1 :: .byte c2 :: rest' =>
        let cp := (b - 0xE0) * 4096 + (c1 - 0x80) * 64 + (c2 - 0x80)
        if isCont c1 ∧ isCont c2 ∧ 0x800 ≤ cp ∧ ¬ (0xD800 ≤ cp ∧ cp ≤ 0xDFFF) then
          (pctAssemble rest').map (Char.ofNat cp :: ·)
        else none
      | _ => none
    else if b < 0xF5 then
      match rest with
      | .byte c1 :: .byte c2 :: .byte c3 :: rest' =>
        let cp := (b - 0xF0) * 262144 + (c1 - 0x80) * 4096 + (c2 - 0x80) * 64 + (c3 - 0x80)
        if isCont c1 ∧ isCont c2 ∧ isCont c3 ∧ 0x10000 ≤ cp ∧ cp ≤ 0x10FFFF then
          (pctAssemble rest').map (Char.ofNat cp :: ·)
        else none
      | _ => none
    else none

/-- The JS builtin `decodeURIComponent`; `.error` models a thrown
    `URIError`. -/
def decodeURIComponent (s : String) : Except Unit String :=
  match pctTokens s.data with
  | none => .error ()
  | some toks =>
    match pctAssemble toks with
    | none => .error ()
    | some cs => .ok (String.mk cs)


/-- Escape one character for a JSON string literal. -/
def jsonEscapeChar (c : Char) : String :=
  if c = '"' then "\\\""
  else if c = '\\' then "\\\\"
  else if c = '\n' then "\\n"
  else if c = '\r' then "\\r"
  else if c = '\t' then "\\t"
  else String.singleton c

/-- Escape a string for a JSON string literal. -/
def jsonEscape (s : String) : String :=
  s.data.foldl (fun acc c => acc ++ jsonEscapeChar c) ""

mutual

/-- `JSON.stringify` on the embedded values (non-finite numbers print as
    `null`, exactly as in JS). -/
def jsonStringify : JValue → String
  | .vstr s => "\"" ++ jsonEscape s ++ "\""
  | .vnum (.fin n) => toString n
  | .vnum _ => "null"
  | .vbool true => "true"
  | .vbool false => "false"
  | .vnull => "null"
  | .varr l => "[" ++ jsonStringifyArr l ++ "]"
  | .vobj l => "\x7b" ++ jsonStringifyObj l ++ "\x7d"

/-- Comma-separated serialization of an array's elements. -/
def jsonStringifyArr : List JValue → String
  | [] => ""
  | [v] => jsonStringify v
  | v :: rest => jsonStringify v ++ "," ++ jsonStringifyArr rest

/-- Comma-separated serialization of an object's entries. -/
def jsonStringifyObj : List (String × JValue) → String
  | [] => ""
  | [(k, v)] => "\"" ++ jsonEscape k ++ "\":" ++ jsonStringify v
  | (k, v) :: rest =>
    "\"" ++ jsonEscape k ++ "\":" ++ jsonStringify v ++ "," ++ jsonStringifyObj rest

end

/-- The body stream of a request, modelled as an oracle for the platform
    methods: `jsonResult` is the outcome of `request.json()` (`none` when
    parsing throws), `formResult` the entries of `request.formData()`, and
    `textResult` the value of `request.text()`. -/
structure RawBody where
  jsonResult : Option JValue
  formResult : List (String × String)
  textResult : String

/-- An inbound HTTP request.  `path` is `url.pathname` (still
    percent-encoded); `searchParams` are the decoded query pairs in
    order, as `URLSearchParams` yields them. -/
structure Request where
  method : String
  path : String
  searchParams : List (String × String)
  headers : List (String × String)
  body : RawBody

/-- `request.headers.get(name)`: case-insensitive header lookup. -/
def reqHeaderGet (req : Request) (name : String) : Option String :=
  (req.headers.find? (fun p => strToLower p.1 == strToLower name)).map (·.2)

/-- An outbound HTTP response; `body := none` models `new Response(null)`. -/
structure Response where
  status : Nat
  headers : List (String × String)
  body : Option String
  deriving DecidableEq, Repr

/-- `Headers.set`: names are stored lower-cased, setting replaces. -/
def hset (hs : List (String × String)) (name value : String) :
    List (String × String) :=
  setKeyStr hs (strToLower name) value

/-- `Headers.get`: case-insensitive lookup. -/
def hget (hs : List (String × String)) (name : String) : Option String :=
  lookupStr hs (strToLower name)

/-- Case-insensitive header lookup on a built response. -/
def Response.header (r : Response) (name : String) : Option String :=
  hget r.headers name

/-- `LegacyRouterAdapter.parseQuery`: a repeated key becomes an array in
    first-seen order, a single occurrence stays a scalar string. -/
def legacyParseQuery (pairs : List (String × String)) : List (String × JValue) :=
  pairs.foldl (fun query kv =>
    match assocFind query kv.1 with
    | some (.varr l) => setKey query kv.1 (.varr (l ++ [.vstr kv.2]))
    | some v => setKey query kv.1 (.varr [v, .vstr kv.2])
    | none => query ++ [(kv.1, .vstr kv.2)]) []

/-- `parseQuery` of router-hono.ts (same algorithm as the legacy one). -/
def honoParseQuery (pairs : List (String × String)) : List (String × JValue) :=
  pairs.foldl (fun query kv =>
    match assocFind query kv.1 with
    | some (.varr l) => setKey query kv.1 (.varr (l ++ [.vstr kv.2]))
    | some v => setKey query kv.1 (.varr [v, .vstr kv.2])
    | none => query ++ [(kv.1, .vstr kv.2)]) []

/-- Loop of `LegacyRouterAdapter.extractParams`: route and path segment
    lists have equal length when this is called. -/
def legacyParamsGo : List String → List String → List (String × String) →
    Option (List (String × String))
  | [], _, params => some params
  | rp :: rps, pp :: pps, params =>
    if strStartsWith rp ":" then
      let value :=
        match decodeURIComponent pp with
        | .ok v => v
        | .error _ => pp
      legacyParamsGo rps pps (setKeyStr params (strDrop rp 1) value)
    else if rp = pp then legacyParamsGo rps pps params
    else none
  | _ :: _, [], params => some params

/-- `LegacyRouterAdapter.extractParams`: match a route pattern against a
    pathname; `:name` segments capture the percent-decoded path segment
    (falling back to the raw segment when decoding throws). -/
def legacyExtractParams (routePath pathname : String) :
    Option (List (String × String)) :=
  let routeParts := (strSplit routePath '/').filter (fun s => s ≠ "")
  let pathParts := (strSplit pathname '/').filter (fun s => s ≠ "")
  if routeParts.length ≠ pathParts.length then none
  else legacyParamsGo routeParts pathParts []

/-- Loop of `extractParams` in router-hono.ts: note that `:name` segments
    capture the raw path segment, with no percent-decoding. -/
def honoParamsGo : List String → List String → List (String × String) →
    List (String × String)
  | rp :: rps, pp :: pps, params =>
    if rp = "*" then setKeyStr params "*" (strJoinSep "/" (pp :: pps))
    else
      let params' := if strStartsWith rp ":" then setKeyStr params (strDrop rp 1) pp else params
      honoParamsGo rps pps params'
  | rp :: _, [], params => if rp = "*" then setKeyStr params "*" "" else params
  | [], _, params => params

/-- `extractParams` of router-hono.ts. -/
def honoExtractParams (routePath pathname : String) : List (String × String) :=
  honoParamsGo ((strSplit routePath '/').filter (fun s => s ≠ ""))
    ((strSplit pathname '/').filter (fun s => s ≠ "")) []


/-- `LegacyRouterAdapter.parseBody`: dispatch on `Content-Type`.  JSON
    parse failures (`jsonResult = none`) propagate as a thrown error;
    non-object JSON and unsupported content types yield `{}`. -/
def legacyParseBody (req : Request) : Except Unit JValue :=
  let contentType := (reqHeaderGet req "content-type").getD ""
  if jsIncludes contentType "application/json" then
    match req.body.jsonResult with
    | none => .error ()
    | some jsonBody =>
      if jsonBody.truthy ∧ jsonBody.isTypeofObject then .ok jsonBody
      else .ok (.vobj [])
  else if jsIncludes contentType "application/x-www-form-urlencoded" then
    .ok (.vobj (req.body.formResult.foldl (fun body kv => setKey body kv.1 (.vstr kv.2)) []))
  else if jsIncludes contentType "multipart/form-data" then
    .ok (.vobj (req.body.formResult.foldl (fun body kv => setKey body kv.1 (.vstr kv.2)) []))
  else .ok (.vobj [])

/-- `parseBody` of router-hono.ts.  Unlike the legacy decoder, JSON comes
    back unfiltered, multipart returns the `FormData` object (modelled
    here by its entry map), and any other content type returns
    `await request.text()` — a string, not an empty object. -/
def honoParseBody (req : Request) : Except Unit JValue :=
  let contentType := (reqHeaderGet req "content-type").getD ""
  if jsIncludes contentType "application/json" then
    match req.body.jsonResult with
    | none => .error ()
    | some jsonBody => .ok jsonBody
  else if jsIncludes contentType "application/x-www-form-urlencoded" then
    .ok (.vobj (req.body.formResult.foldl (fun body kv => setKey body kv.1 (.vstr kv.2)) []))
  else if jsIncludes contentType "multipart/form-data" then
    .ok (.vobj (req.body.formResult.map (fun kv => (kv.1, JValue.vstr kv.2))))
  else .ok (.vstr req.body.textResult)

/-- A declared basic type in a validation schema. -/
inductive BasicType where
  | string
  | number
  | boolean
  | array
  deriving DecidableEq, Repr

/-- One property declaration of a schema (`SchemaPropertyDefinition`).
    Declared types outside the four basic ones are modelled as `none`. -/
structure SchemaProp where
  type : Option BasicType
  optional : Bool
  deriving DecidableEq, Repr

/-- A validation schema (`ValidationSchema`): `stype` is the `type` field,
    `properties` the declared property map in declaration order. -/
structure VSchema where
  stype : Option String
  properties : Option (List (String × SchemaProp))
  deriving Repr

/-- `typeof v === 'string'`. -/
def JValue.isStr : JValue → Bool
  | .vstr _ => true
  | _ => false

/-- `typeof v === 'number'` (NaN and infinities included). -/
def JValue.isNum : JValue → Bool
  | .vnum _ => true
  | _ => false

/-- `typeof v === 'boolean'`. -/
def JValue.isBool : JValue → Bool
  | .vbool _ => true
  | _ => false

/-- `Array.isArray(v)`. -/
def JValue.isArr : JValue → Bool
  | .varr _ => true
  | _ => false

/-- The five accumulating checks both validators run for one declared
    property, in source order: four type checks on present values, then
    the required check on absent ones. -/
def propChecks (key : String) (prop : SchemaProp) (value : Option JValue) :
    List String :=
  let mism : (JValue → Bool) → Bool := fun test =>
    match value with
    | some v => ¬ test v
    | none => false
  let e1 :=
    if prop.type = some .string ∧ mism JValue.isStr then
      [key ++ " must be a string"] else []
  let e2 :=
    if prop.type = some .number ∧ mism JValue.isNum then
      [key ++ " must be a number"] else []
  let e3 :=
    if prop.type = some .boolean ∧ mism JValue.isBool then
      [key ++ " must be a boolean"] else []
  let e4 :=
    if prop.type = some .array ∧ mism JValue.isArr then
      [key ++ " must be an array"] else []
  let e5 := if ¬ prop.optional ∧ value.isNone then [key ++ " is required"] else []
  e1 ++ e2 ++ e3 ++ e4 ++ e5

/-- `LegacyRouterAdapter.validateSchema`.  Non-object data is replaced by
    `{}` before the property loop (`typeof data === 'object' && data !==
    null` — note arrays pass that test, but named property reads on them
    still yield `undefined` for the schema's keys). -/
def legacyValidateSchema (schema : Option VSchema) (data : JValue) :
    Bool × List String :=
  match schema with
  | none => (true, [])
  | some s =>
    match s.stype, s.properties with
    | some st, some props =>
      if st = "object" then
        let dataRecord : List (String × JValue) :=
          match data with
          | .vobj l => l
          | _ => []
        let errors := props.foldl
          (fun errs kp => errs ++ propChecks kp.1 kp.2 (assocFind dataRecord kp.1)) []
        (errors.isEmpty, errors)
      else (true, [])
    | _, _ => (true, [])

/-- `validateSchema` of router-hono.ts: identical checks; the value is
    read with `(data as Record<string, unknown> | undefined)?.[key]`, so
    any non-object data yields `undefined` for every declared key. -/
def honoValidateSchema (schema : Option VSchema) (data : JValue) :
    Bool × List String :=
  match schema with
  | none => (true, [])
  | some s =>
    match s.stype, s.properties with
    | some st, some props =>
      if st = "object" then
        let valueOf : String → Option JValue := fun key =>
          match data with
          | .vobj l => assocFind l key
          | _ => none
        let errors := props.foldl
          (fun errs kp => errs ++ propChecks kp.1 kp.2 (valueOf kp.1)) []
        (errors.isEmpty, errors)
      else (true, [])
    | _, _ => (true, [])

/-- The `{title: string, content: string}` schema of §8 of the spec. -/
def titleContentSchema : VSchema :=
  { stype := some "object",
    properties := some
      [("title", { type := some .string, optional := false }),
       ("content", { type := some .string, optional := false })] }


/-- The per-request context (the fields of `Context` the router layer
    itself reads or writes; the `store`/`jwt` wiring feeds `deriveAuth`,
    which is embedded separately below as `AuthCtx`). -/
structure Ctx where
  request : Request
  params : List (String × String)
  query : List (String × JValue)
  headers : List (String × String)
  body : JValue
  setStatus : Nat
  setHeaders : List (String × String)

/-- A thrown domain error, classified the way the error handler maps it. -/
inductive ErrKind where
  | validation : String → Option (List String) → ErrKind
  | notFoundErr : String → ErrKind
  | forbidden : String → ErrKind
  | other : ErrKind

/-- The fixed error envelope of §3 of the spec:
    `(success:false, error:(code, message, requestId, details?))`. -/
def errEnvelope (code msg requestId : String) (details : Option (List String)) :
    JValue :=
  .vobj [("success", .vbool false),
         ("error", .vobj
           ([("code", .vstr code),
             ("message", .vstr msg),
             ("requestId", .vstr requestId)] ++
            (match details with
             | some ds => [("details", .varr (ds.map (fun m => .vobj [("message", .vstr m)])))]
             | none => [])))]

/-- Modelled from the spec: `handleError` lives in core/error-handler.ts,
    which is not under src/.  §4.6 fixes its mapping — validation failure
    becomes 400/VALIDATION_ERROR (with a `details` array when available),
    not-found 404/NOT_FOUND, forbidden 403/FORBIDDEN, anything else
    500/INTERNAL_ERROR — always in the §3 envelope with the pre-generated
    `requestId`.  `generateRequestId` from the same missing file is
    modelled by threading the id as an explicit argument. -/
def handleError (e : ErrKind) (requestId : String) : Response :=
  match e with
  | .validation msg details =>
    { status := 400, headers := [("content-type", "application/json")],
      body := some (jsonStringify (errEnvelope "VALIDATION_ERROR" msg requestId details)) }
  | .notFoundErr msg =>
    { status := 404, headers := [("content-type", "application/json")],
      body := some (jsonStringify (errEnvelope "NOT_FOUND" msg requestId none)) }
  | .forbidden msg =>
    { status := 403, headers := [("content-type", "application/json")],
      body := some (jsonStringify (errEnvelope "FORBIDDEN" msg requestId none)) }
  | .other =>
    { status := 500, headers := [("content-type", "application/json")],
      body := some (jsonStringify (errEnvelope "INTERNAL_ERROR" "Internal server error" requestId none)) }

/-- What one middleware call can do: continue (possibly after mutating the
    context), answer the request, or throw. -/
inductive MwOut where
  | next : Ctx → MwOut
  | respond : Response → MwOut
  | throwErr : ErrKind → MwOut

/-- A middleware function. -/
abbrev Middleware := Ctx → MwOut

/-- What a route handler can do: return a plain value (serialized as
    JSON), return a raw `Response` it fully owns, or throw. -/
inductive HandlerRes where
  | plain : JValue → HandlerRes
  | response : Response → HandlerRes
  | throwErr : ErrKind → HandlerRes

/-- A route handler. -/
abbrev Handler := Ctx → HandlerRes

/-- A registered route (`RouteDefinition`). -/
structure RouteDef where
  path : String
  handler : Handler
  schema : Option VSchema

/-- The `LegacyRouterAdapter`'s mutable state: a per-method routing table
    (in `Map` insertion order) and the middleware list.  The `appState`
    map only feeds `context.store`/`jwt`, which no routing claim reads,
    so it is not carried here. -/
structure LegacyRouter where
  routes : List (String × List RouteDef)
  middlewares : List Middleware

/-- The empty legacy router. -/
def LegacyRouter.empty : LegacyRouter := { routes := [], middlewares := [] }

/-- `routes.get(method)?.push(rd)`, creating the method entry on demand. -/
def pushRoute (routes : List (String × List RouteDef)) (method : String)
    (rd : RouteDef) : List (String × List RouteDef) :=
  match routes with
  | [] => [(method, [rd])]
  | (m, rs) :: rest =>
    if m = method then (m, rs ++ [rd]) :: rest
    else (m, rs) :: pushRoute rest method rd

/-- `LegacyRouterAdapter.addRoute`. -/
def LegacyRouter.addRoute (r : LegacyRouter) (method path : String)
    (handler : Handler) (schema : Option VSchema) : LegacyRouter :=
  { r with routes := pushRoute r.routes method { path, handler, schema } }

/-- `LegacyRouterAdapter.use`: append to the middleware list. -/
def LegacyRouter.use (r : LegacyRouter) (mw : Middleware) : LegacyRouter :=
  { r with middlewares := r.middlewares ++ [mw] }

/-- `LegacyRouterAdapter.group`: build a child router whose middleware
    list is a copy (`[...this.middlewares]`) of the parent's, run the
    callback on it, then merge its routes into the parent with the prefix
    prepended.  Note only the routes flow back to the parent. -/
def LegacyRouter.group (r : LegacyRouter) (pfx : String)
    (callback : LegacyRouter → LegacyRouter) : LegacyRouter :=
  let groupRouter := callback { routes := [], middlewares := r.middlewares }
  groupRouter.routes.foldl
    (fun acc mrs =>
      mrs.2.foldl
        (fun acc rd =>
          { acc with routes := pushRoute acc.routes mrs.1 { rd with path := pfx ++ rd.path } })
        acc)
    r

/-- First matching route of `LegacyRouterAdapter.matchRoute`'s loop. -/
def matchFirst (routes : List RouteDef) (pathname : String) :
    Option (RouteDef × List (String × String)) :=
  match routes with
  | [] => none
  | rd :: rest =>
    match legacyExtractParams rd.path pathname with
    | some params => some (rd, params)
    | none => matchFirst rest pathname

/-- `LegacyRouterAdapter.matchRoute`. -/
def LegacyRouter.matchRoute (r : LegacyRouter) (method pathname : String) :
    Option (RouteDef × List (String × String)) :=
  match (r.routes.find? (fun p => p.1 == method)).map (·.2) with
  | none => none
  | some rs => matchFirst rs pathname

/-- `LegacyRouterAdapter.createContext` (without the store wiring). -/
def legacyCreateContext (req : Request) (params : List (String × String)) : Ctx :=
  { request := req,
    params := params,
    query := legacyParseQuery req.searchParams,
    headers := req.headers.foldl (fun m kv => setKeyStr m (strToLower kv.1) kv.2) [],
    body := .vobj [],
    setStatus := 200,
    setHeaders := [] }

/-- `LegacyRouterAdapter.runMiddlewares`: run in registration order; a
    returned `Response` aborts the chain, a thrown error is routed
    through `handleError`. -/
def legacyRunMiddlewares : List Middleware → Ctx → String → Ctx × Option Response
  | [], ctx, _ => (ctx, none)
  | mw :: rest, ctx, requestId =>
    match mw ctx with
    | .next ctx' => legacyRunMiddlewares rest ctx' requestId
    | .respond r => (ctx, some r)
    | .throwErr e => (ctx, some (handleError e requestId))

/-- The fixed not-found envelope both adapters serialize. -/
def notFoundEnvelope (method pathname requestId : String) : JValue :=
  .vobj [("success", .vbool false),
         ("error", .vobj
           [("code", .vstr "NOT_FOUND"),
            ("message", .vstr ("Route " ++ method ++ " " ++ pathname ++ " not found")),
            ("requestId", .vstr requestId)])]

/-- `LegacyRouterAdapter.handle`.  `requestId` stands for the
    `generateRequestId()` call at the top of the method (the generator
    lives in the missing error-handler.ts, so the id is an argument). -/
def legacyHandle (router : LegacyRouter) (req : Request) (requestId : String) :
    Response :=
  let method := req.method
  let pathname := req.path
  let preflight : Option Response :=
    if method = "OPTIONS" then
      (legacyRunMiddlewares router.middlewares (legacyCreateContext req []) requestId).2
    else none
  match preflight with
  | some r => r
  | none =>
    match router.matchRoute method pathname with
    | none =>
      { status := 404, headers := [("content-type", "application/json")],
        body := some (jsonStringify (notFoundEnvelope method pathname requestId)) }
    | some (route, params) =>
      let ctx := legacyCreateContext req params
      let bodyRes : Except Unit JValue :=
        if method = "POST" ∨ method = "PUT" ∨ method = "PATCH" then legacyParseBody req
        else .ok ctx.body
      match bodyRes with
      | .error _ => handleError (.validation "Invalid request body format" none) requestId
      | .ok body =>
        let ctx := { ctx with body := body }
        let schemaFail : Option Response :=
          match route.schema with
          | none => none
          | some _ =>
            let validation := legacyValidateSchema route.schema ctx.body
            if validation.1 then none
            else some (handleError (.validation "Validation failed" (some validation.2)) requestId)
        match schemaFail with
        | some r => r
        | none =>
          match legacyRunMiddlewares router.middlewares ctx requestId with
          | (_, some r) => r
          | (ctx', none) =>
            match route.handler ctx' with
            | .response r => r
            | .throwErr e => handleError e requestId
            | .plain v =>
              { status := ctx'.setStatus,
                headers := hset ctx'.setHeaders "Content-Type" "application/json",
                body := some (jsonStringify v) }

/-- `buildPreflightResponse` of router-hono.ts:
    `request.headers.get('origin') || '*'` — note an Origin header that is
    present but empty also falls back to `*`. -/
def buildPreflightResponse (req : Request) : Response :=
  let origin :=
    match reqHeaderGet req "origin" with
    | some o => if o = "" then "*" else o
    | none => "*"
  { status := 204,
    headers :=
      hset (hset (hset (hset (hset []
        "Access-Control-Allow-Origin" origin)
        "Access-Control-Allow-Methods" "GET, POST, PUT, DELETE, PATCH, OPTIONS")
        "Access-Control-Allow-Headers" "content-type, authorization, x-csrf-token")
        "Access-Control-Max-Age" "600")
        "Access-Control-Allow-Credentials" "true",
    body := none }

/-- `buildNotFoundResponse` of router-hono.ts; its internal
    `generateRequestId()` (missing error-handler.ts) is the argument. -/
def buildNotFoundResponse (req : Request) (requestId : String) : Response :=
  { status := 404, headers := [("content-type", "application/json")],
    body := some (jsonStringify (notFoundEnvelope req.method req.path requestId)) }

/-- A route registered on the hono adapter (`fullPath` with the group
    prefix already joined in, as `addRoute` stores it). -/
structure HonoRoute where
  method : String
  path : String
  handler : Handler
  schema : Option VSchema

/-- The hono adapter's root state: the route table handed to the `Hono`
    app and the shared middleware list. -/
structure HonoRouter where
  routes : List HonoRoute
  middlewares : List Middleware

/-- The empty hono router. -/
def HonoRouter.empty : HonoRouter := { routes := [], middlewares := [] }

/-- `HonoRouterAdapter.use`. -/
def HonoRouter.use (h : HonoRouter) (mw : Middleware) : HonoRouter :=
  { h with middlewares := h.middlewares ++ [mw] }

/-- `HonoRouterAdapter.addRoute` (prefix already joined into `path`). -/
def HonoRouter.addRoute (h : HonoRouter) (method path : String)
    (handler : Handler) (schema : Option VSchema) : HonoRouter :=
  { h with routes := h.routes ++ [{ method, path, handler, schema }] }

/-- Modelled from the spec: the route matcher of the third-party `Hono`
    app (constructed with `strict: false`), which is not part of this
    repository.  Per §4.8 it matches `:param` segments, a greedy trailing
    `*`, and is trailing-slash-insensitive (`strict: false` drops the
    distinction), with static segments compared verbatim. -/
def honoSegMatch : List String → List String → Bool
  | [], [] => true
  | "*" :: _, _ => true
  | rp :: rps, pp :: pps => (strStartsWith rp ":" ∨ rp = pp) ∧ honoSegMatch rps pps
  | _, _ => false

/-- Modelled from the spec: pattern-vs-pathname matching of the `Hono`
    router with `strict: false` (empty segments dropped, so `/x` ≡ `/x/`). -/
def honoMatches (routePath pathname : String) : Bool :=
  honoSegMatch ((strSplit routePath '/').filter (fun s => s ≠ ""))
    ((strSplit pathname '/').filter (fun s => s ≠ ""))

/-- First registered route whose method and pattern match the request. -/
def honoFindRoute (routes : List HonoRoute) (method pathname : String) :
    Option HonoRoute :=
  routes.find? (fun r => r.method == method && honoMatches r.path pathname)

/-- The middleware loop inside `wrappedHandler` of router-hono.ts (same
    semantics as the legacy `runMiddlewares`). -/
def honoRunMiddlewares : List Middleware → Ctx → String → Ctx × Option Response
  | [], ctx, _ => (ctx, none)
  | mw :: rest, ctx, requestId =>
    match mw ctx with
    | .next ctx' => honoRunMiddlewares rest ctx' requestId
    | .respond r => (ctx, some r)
    | .throwErr e => (ctx, some (handleError e requestId))

/-- `wrappedHandler` built by `HonoRouterAdapter.addRoute`: context
    construction (note `body` starts as `null` and `params` come from the
    non-decoding `extractParams`), body decode, schema validation,
    middleware chain, then the handler. -/
def honoWrappedHandler (route : HonoRoute) (mws : List Middleware)
    (req : Request) (requestId : String) : Response :=
  let ctx : Ctx :=
    { request := req,
      params := honoExtractParams route.path req.path,
      query := honoParseQuery req.searchParams,
      headers := req.headers.foldl (fun m kv => setKeyStr m (strToLower kv.1) kv.2) [],
      body := .vnull,
      setStatus := 200,
      setHeaders := [] }
  let bodyRes : Except Unit JValue :=
    if req.method = "POST" ∨ req.method = "PUT" ∨ req.method = "PATCH" then honoParseBody req
    else .ok ctx.body
  match bodyRes with
  | .error _ => handleError (.validation "Invalid request body format" none) requestId
  | .ok body =>
    let ctx := { ctx with body := body }
    let schemaFail : Option Response :=
      match route.schema with
      | none => none
      | some _ =>
        let validation := honoValidateSchema route.schema ctx.body
        if validation.1 then none
        else some (handleError (.validation "Validation failed" (some validation.2)) requestId)
    match schemaFail with
    | some r => r
    | none =>
      match honoRunMiddlewares mws ctx requestId with
      | (_, some r) => r
      | (ctx', none) =>
        match route.handler ctx' with
        | .response r => r
        | .throwErr e => handleError e requestId
        | .plain v =>
          { status := ctx'.setStatus,
            headers := hset ctx'.setHeaders "Content-Type" "application/json",
            body := some (jsonStringify v) }

/-- `HonoRouterAdapter.handle`: dispatch through the `Hono` app, whose
    root handlers (`initializeRootHandlers`) answer every `OPTIONS`
    request with the built-in preflight response before any registered
    middleware can see it, and route unmatched requests to
    `buildNotFoundResponse`. -/
def honoHandle (h : HonoRouter) (req : Request) (requestId : String) : Response :=
  if req.method = "OPTIONS" then buildPreflightResponse req
  else
    match honoFindRoute h.routes req.method req.path with
    | none => buildNotFoundResponse req requestId
    | some route => honoWrappedHandler route h.middlewares req requestId

/-- Modelled from the spec: core/base.ts (`createBaseApp`) is not under
    src/ — only its tests and callers are.  Per §4.7/§4.8 and the parity
    tests, the base app registers a CORS middleware that answers any
    `OPTIONS` request with the shared preflight response and otherwise
    stamps the CORS headers onto the response state and continues. -/
def corsMiddleware : Middleware := fun ctx =>
  if ctx.request.method = "OPTIONS" then .respond (buildPreflightResponse ctx.request)
  else
    let origin :=
      match reqHeaderGet ctx.request "origin" with
      | some o => if o = "" then "*" else o
      | none => "*"
    let hs :=
      hset (hset (hset (hset ctx.setHeaders
        "Access-Control-Allow-Origin" origin)
        "Access-Control-Allow-Headers" "content-type, authorization, x-csrf-token")
        "Access-Control-Allow-Credentials" "true")
        "Access-Control-Allow-Methods" "GET, POST, PUT, DELETE, PATCH, OPTIONS"
    .next { ctx with setHeaders := hs }

/-- One row of the `users` table (the fields `deriveAuth` reads). -/
structure UserRow where
  id : Int
  username : String
  permission : Int

/-- The slice of the request context `deriveAuth` touches:
    `authorizationHeader` is `request.headers.get('authorization')`,
    `cookieToken` is `cookie.token?.value`, and `uid`/`username`/`admin`
    are the fields it may stamp. -/
structure AuthCtx where
  authorizationHeader : Option String
  cookieToken : Option String
  uid : Option Int
  username : Option String
  admin : Bool
  deriving DecidableEq, Repr

/-- A JWT payload (`Record<string, unknown>`). -/
abbrev JwtPayload := List (String × JValue)

/-- `jwt.verify`: `none` models a failed verification (`null`). -/
abbrev JwtVerify := String → Option JwtPayload

/-- JS `Number.parseInt(s, 10)`: skip whitespace, optional sign, then
    leading decimal digits; `none` models `NaN`. -/
def jsParseInt (s : String) : Option Int :=
  let cs := s.data.dropWhile isJsWs
  let signAndRest : Int × List Char :=
    match cs with
    | '-' :: r => (-1, r)
    | '+' :: r => (1, r)
    | _ => (1, cs)
  let digits := signAndRest.2.takeWhile Char.isDigit
  if digits.isEmpty then none
  else some (signAndRest.1 *
    Int.ofNat (digits.foldl (fun acc c => acc * 10 + (c.toNat - '0'.toNat)) 0))

/-- The id coercion in `deriveAuth`: a number is kept as-is, a string goes
    through `Number.parseInt(·, 10)`, anything else is `NaN`. -/
def coerceProfileId (idClaim : Option JValue) : JsNum :=
  match idClaim with
  | some (.vnum n) => n
  | some (.vstr s) =>
    match jsParseInt s with
    | some n => .fin n
    | none => .nan
  | _ => .nan

/-- `deriveAuth` of core/setup.ts.  The returned triple is
    (tokens passed to `jwt.verify` in call order,
     whether the `users.findFirst` lookup was issued,
     the context after the call). -/
def deriveAuth (jwt : Option JwtVerify) (db : List UserRow) (ctx : AuthCtx) :
    List String × Bool × AuthCtx :=
  let headerToken : Option String :=
    match ctx.authorizationHeader with
    | some h => if strStartsWith h "Bearer " then some (strDrop h 7) else none
    | none => none
  let cookieToken := ctx.cookieToken
  if (¬ jsTruthy headerToken ∧ ¬ jsTruthy cookieToken) ∨ jwt.isNone then
    ([], false, ctx)
  else
    let verify := jwt.getD (fun _ => none)
    let step1 : List String × Option JwtPayload :=
      if jsTruthy headerToken then
        ([headerToken.getD ""], verify (headerToken.getD ""))
      else ([], none)
    let step2 : List String × Option JwtPayload :=
      if step1.2.isNone ∧ jsTruthy cookieToken ∧ cookieToken ≠ headerToken then
        (step1.1 ++ [cookieToken.getD ""], verify (cookieToken.getD ""))
      else step1
    match step2.2 with
    | none => (step2.1, false, ctx)
    | some profile =>
      let profileId := coerceProfileId (assocFind profile "id")
      match profileId with
      | .fin idVal =>
        match db.find? (fun u => u.id == idVal) with
        | none => (step2.1, true, ctx)
        | some user =>
          (step2.1, true,
           { ctx with
              uid := some user.id,
              username := some user.username,
              admin := user.permission == 1 })
      | _ => (step2.1, false, ctx)

/-- One iteration of the cookie-parsing loop in `createCookieHelpers`:
    trim the pair, split it on `=` and keep the first two components
    (`const [name, value] = cookie.trim().split('=')`), skip the pair
    unless both are truthy, URL-decode the value into the `Map`.
    `.error` models an uncaught `URIError` from `decodeURIComponent`. -/
def cookieStep (acc : Except Unit (List (String × String))) (cookie : String) :
    Except Unit (List (String × String)) :=
  match acc with
  | .error e => .error e
  | .ok m =>
    let parts := strSplit (strTrim cookie) '='
    match parts[0]?, parts[1]? with
    | some n, some v =>
      if n ≠ "" ∧ v ≠ "" then
        match decodeURIComponent v with
        | .ok dv => .ok (setKeyStr m n dv)
        | .error _ => .error ()
      else .ok m
    | _, _ => .ok m

/-- The cookie-parsing pass of `createCookieHelpers`: split the `Cookie`
    header on `;` and run the loop above over the pairs. -/
def parseCookiePairs (cookieHeader : String) :
    Except Unit (List (String × String)) :=
  (strSplit cookieHeader ';').foldl cookieStep (.ok [])

/-- Reading `cookie[name]` through the proxy:
    `parsedCookies.get(prop) || ''`. -/
def cookieRead (m : List (String × String)) (name : String) : String :=
  match lookupStr m name with
  | some v => if v = "" then "" else v
  | none => ""

/-- The closed `RouterImpl` enumeration. -/
inductive RouterImpl where
  | legacy
  | hono
  deriving DecidableEq, Repr

/-- `VALID_IMPLS` of router-factory.ts. -/
def VALID_IMPLS : List String := ["legacy", "hono"]

/-- `normalizeRouterImpl`: `if (!value) return undefined` — so the empty
    string, being falsy, is treated like an unset variable. -/
def normalizeRouterImpl (value : Option String) : Option RouterImpl :=
  match value with
  | none => none
  | some v =>
    if v = "" then none
    else if VALID_IMPLS.contains v then
      if v = "legacy" then some .legacy else some .hono
    else none

/-- `resolveRouterImpl`: the second component records whether
    `console.warn` fired (`if (raw)` — again a truthiness test). -/
def resolveRouterImpl (rimpl : Option String) : RouterImpl × Bool :=
  match normalizeRouterImpl rimpl with
  | some envImpl => (envImpl, false)
  | none => (.hono, jsTruthy rimpl)

/-- The injected constructors (`RouterFactoryDeps`); each is an already
    evaluated outcome, `.error` modelling a thrown construction error. -/
structure RouterFactoryDeps (α ε : Type) where
  createHono : Except ε α
  createLegacy : Except ε α

/-- `createRouterWithFactory`: resolve the implementation, then call
    exactly that family's constructor; its exception propagates. -/
def createRouterWithFactory {α ε : Type} (rimpl : Option String)
    (deps : RouterFactoryDeps α ε) : Except ε α :=
  match (resolveRouterImpl rimpl).1 with
  | .hono => deps.createHono
  | .legacy => deps.createLegacy

/-
  Concrete fixtures used by the claim theorems below.
-/

/-- A request body whose every stream method misbehaves least: `json()`
    throws, `formData()` is empty, `text()` is empty. -/
def emptyBody : RawBody := { jsonResult := none, formResult := [], textResult := "" }

/-- A plain GET request for `p` with no query, headers or body. -/
def simpleGet (p : String) : Request :=
  { method := "GET", path := p, searchParams := [], headers := [], body := emptyBody }

/-- An OPTIONS request for `p` with no headers. -/
def optionsReq (p : String) : Request :=
  { method := "OPTIONS", path := p, searchParams := [], headers := [], body := emptyBody }

/-- An OPTIONS request carrying an explicitly empty Origin header. -/
def emptyOriginOptionsReq : Request :=
  { method := "OPTIONS", path := "/x", searchParams := [],
    headers := [("Origin", "")], body := emptyBody }

/-- An OPTIONS request from `https://example.com`. -/
def originOptionsReq : Request :=
  { method := "OPTIONS", path := "/x", searchParams := [],
    headers := [("Origin", "https://example.com")], body := emptyBody }

/-- A handler returning `({ok: true})`. -/
def okHandler : Handler := fun _ => .plain (.vobj [("ok", .vbool true)])

/-- A handler echoing `context.params`. -/
def echoParamsHandler : Handler :=
  fun ctx => .plain (.vobj (ctx.params.map (fun p => (p.1, JValue.vstr p.2))))

/-- A handler echoing `context.body`. -/
def echoBodyHandler : Handler := fun ctx => .plain ctx.body

/-- A handler returning the string `"handled"`, to witness that the
    request reached it. -/
def handledHandler : Handler := fun _ => .plain (.vstr "handled")

/-- The `POST /body` request of §8: `Content-Type: text/plain`, body
    `plain-text payload`. -/
def textPlainReq : Request :=
  { method := "POST", path := "/body", searchParams := [],
    headers := [("Content-Type", "text/plain")],
    body := { jsonResult := none, formResult := [], textResult := "plain-text payload" } }

/-- The claim-level lookup both validators effectively use: property read
    on object data, `undefined` on anything else. -/
def schemaValueOf (data : JValue) (key : String) : Option JValue :=
  match data with
  | .vobj l => assocFind l key
  | _ => none

/-- Does a value satisfy a declared basic type? -/
def basicTypeTest (t : BasicType) (v : JValue) : Bool :=
  match t with
  | .string => v.isStr
  | .number => v.isNum
  | .boolean => v.isBool
  | .array => v.isArr

/-- Side condition of the amended C9 claim, per pair: if the pair survives
    the name/value truthiness filter, its value percent-decodes without
    error. -/
def cookieSegWellFormed (cookie : String) : Bool :=
  let parts := strSplit (strTrim cookie) '='
  match parts[0]?, parts[1]? with
  | some n, some v =>
    if n ≠ "" ∧ v ≠ "" then (decodeURIComponent v).isOk else true
  | _, _ => true

/-- Side condition of the amended C9 claim: every pair of the `Cookie`
    header that survives the name/value truthiness filter has a value
    that percent-decodes without error. -/
def cookieHeaderWellFormed (header : String) : Bool :=
  (strSplit header ';').all cookieSegWellFormed

/-- The error message of a failed basic-type check. -/
def typeErrMsg (key : String) : BasicType → String
  | .string => key ++ " must be a string"
  | .number => key ++ " must be a number"
  | .boolean => key ++ " must be a boolean"
  | .array => key ++ " must be an array"

/-- The legacy adapter with `POST /posts` guarded by the title/content
    schema. -/
def legacySchemaRouter : LegacyRouter :=
  LegacyRouter.empty.addRoute "POST" "/posts" handledHandler (some titleContentSchema)

/-- The hono adapter with the same schema-guarded route. -/
def honoSchemaRouter : HonoRouter :=
  HonoRouter.empty.addRoute "POST" "/posts" handledHandler (some titleContentSchema)

/-- `POST /posts` with JSON body `(empty object)`. -/
def postEmptyReq : Request :=
  { method := "POST", path := "/posts", searchParams := [],
    headers := [("Content-Type", "application/json")],
    body := { jsonResult := some (.vobj []), formResult := [], textResult := "" } }

/-- `POST /posts` with JSON body `(title: T, content: C)`. -/
def postValidReq : Request :=
  { method := "POST", path := "/posts", searchParams := [],
    headers := [("Content-Type", "application/json")],
    body := { jsonResult := some (.vobj [("title", .vstr "T"), ("content", .vstr "C")]),
              formResult := [], textResult := "" } }

/-
  Claim theorems.
-/

/-- C1: the claim says the legacy and hono adapters, given identical route
    tables, return identical status codes and bodies for not-found,
    OPTIONS preflight, trailing-slash and repeated-query-key requests.
    The code violates this on the OPTIONS case: over the identical
    (empty) route table the legacy adapter routes OPTIONS through its
    (empty) middleware chain and then falls through to matching, so it
    answers with the 404 NOT_FOUND envelope, while the hono adapter's
    built-in root middleware answers 204 with an empty body. -/
theorem C1_adapter_parity_divergence :
    (legacyHandle LegacyRouter.empty (optionsReq "/x") "rid-000001").status = 404 ∧
    (honoHandle HonoRouter.empty (optionsReq "/x") "rid-000001").status = 204 ∧
    (legacyHandle LegacyRouter.empty (optionsReq "/x") "rid-000001").body ≠
      (honoHandle HonoRouter.empty (optionsReq "/x") "rid-000001").body :=
  ⟨rfl, rfl, by decide⟩

/-- C3: the claim (and the repo's own parity test) says a POST whose
    content type is none of the three supported ones decodes to an empty
    object in both adapters.  The legacy decoder does return `{}`, but the
    hono decoder returns `await request.text()` — the raw text string —
    which then reaches the handler as the context body. -/
theorem C3_unsupported_content_type_divergence :
    legacyParseBody textPlainReq = .ok (.vobj []) ∧
    honoParseBody textPlainReq = .ok (.vstr "plain-text payload") ∧
    (legacyHandle (LegacyRouter.empty.addRoute "POST" "/body" echoBodyHandler none)
        textPlainReq "rid-c3").body = some "\x7b\x7d" ∧
    (honoHandle (HonoRouter.empty.addRoute "POST" "/body" echoBodyHandler none)
        textPlainReq "rid-c3").body = some "\"plain-text payload\"" ∧
    JValue.vstr "plain-text payload" ≠ JValue.vobj [] :=
  ⟨rfl, rfl, rfl, rfl, fun h => JValue.noConfusion h⟩

/-- C4: the claim (and the repo's own parity test) says both adapters
    deliver percent-decoded `:param` values, e.g. `hello%20world` becomes
    `hello world`.  The legacy extractor does decode; the hono adapter's
    `extractParams` stores the raw path segment, so its handler observes
    `hello%20world`. -/
theorem C4_param_decoding_divergence :
    legacyExtractParams "/tag/:name" "/tag/hello%20world" = some [("name", "hello world")] ∧
    honoExtractParams "/tag/:name" "/tag/hello%20world" = [("name", "hello%20world")] ∧
    (legacyHandle (LegacyRouter.empty.addRoute "GET" "/tag/:name" echoParamsHandler none)
        (simpleGet "/tag/hello%20world") "rid-c4").body =
      some "\x7b\"name\":\"hello world\"\x7d" ∧
    (honoHandle (HonoRouter.empty.addRoute "GET" "/tag/:name" echoParamsHandler none)
        (simpleGet "/tag/hello%20world") "rid-c4").body =
      some "\x7b\"name\":\"hello%20world\"\x7d" ∧
    ("hello%20world" : String) ≠ "hello world" :=
  ⟨rfl, rfl, rfl, rfl, by decide⟩

/-- C6 counterexample: the empty string is a configuration value outside
    the closed enumeration, yet `normalizeRouterImpl`'s `if (!value)`
    treats it as unset, so the factory falls back to hono with NO
    warning — refuting the claim's "for every value outside the
    enumeration, the factory logs a warning". -/
theorem C6_counterexample :
    VALID_IMPLS.contains "" = false ∧ resolveRouterImpl (some "") = (.hono, false) :=
  ⟨rfl, rfl⟩

/-- C9 counterexample: `createCookieHelpers` splits a pair on every `=`
    and keeps only the second component, so `name=a=b` reads as value
    `a` (not `a=b` as claimed); and a value with a malformed percent
    escape makes `decodeURIComponent` throw out of the parser, so cookie
    reading is not exception-free for every header. -/
theorem C9_counterexample :
    parseCookiePairs "name=a=b" = .ok [("name", "a")] ∧
    ("a" : String) ≠ "a=b" ∧
    parseCookiePairs "token=%" = .error () :=
  ⟨rfl, by decide, rfl⟩

/-- C10 counterexample: a middleware registered on the parent after
    `group()` returned DOES run for a request dispatched to a route that
    was registered inside the group — the response below is the late
    middleware's 299 answer, not the handler's 200 — because group routes
    are merged into the parent's table and `handle` runs the parent's
    live middleware list.  (Without the late middleware the same request
    reaches the handler.) -/
theorem C10_counterexample :
    legacyHandle
      ((LegacyRouter.empty.group "/g" (fun g => g.addRoute "GET" "/r" okHandler none)).use
        (fun _ => .respond { status := 299, headers := [], body := none }))
      (simpleGet "/g/r") "rid-c10" = { status := 299, headers := [], body := none } ∧
    (legacyHandle (LegacyRouter.empty.group "/g" (fun g => g.addRoute "GET" "/r" okHandler none))
      (simpleGet "/g/r") "rid-c10").status = 200 :=
  ⟨rfl, rfl⟩

/-- C6 (amended): every NON-EMPTY configuration value outside the closed
    enumeration logs a warning and falls back to the default hono
    adapter; the empty string, being falsy, is treated like an unset
    variable (silent hono fallback); and for a recognized value whose
    constructor throws, `createRouterWithFactory` propagates that same
    exception, its result never depending on — hence never invoking —
    the other adapter family's constructor. -/
theorem C6_amended_factory :
    (∀ v : String, v ≠ "" → VALID_IMPLS.contains v = false →
      resolveRouterImpl (some v) = (.hono, true)) ∧
    (resolveRouterImpl (some "") = (.hono, false) ∧
      resolveRouterImpl none = (.hono, false)) ∧
    (∀ (α ε : Type) (e : ε) (h l : Except ε α),
      createRouterWithFactory (some "legacy")
        { createHono := h, createLegacy := Except.error e } = Except.error e ∧
      createRouterWithFactory (some "hono")
        { createHono := Except.error e, createLegacy := l } = Except.error e) ∧
    (∀ (α ε : Type) (h h' l : Except ε α),
      createRouterWithFactory (some "legacy") { createHono := h, createLegacy := l } =
        createRouterWithFactory (some "legacy") { createHono := h', createLegacy := l }) ∧
    (∀ (α ε : Type) (h l l' : Except ε α),
      createRouterWithFactory (some "hono") { createHono := h, createLegacy := l } =
        createRouterWithFactory (some "hono") { createHono := h, createLegacy := l' }) := by
  refine ⟨?_, ⟨rfl, rfl⟩, ?_, ?_, ?_⟩
  · intro v hv hcont
    unfold resolveRouterImpl normalizeRouterImpl
    dsimp only
    rw [if_neg hv, hcont]
    simp [jsTruthy, hv]
  · intro α ε e h l
    exact ⟨rfl, rfl⟩
  · intro α ε h h' l
    rfl
  · intro α ε h l l'
    rfl

/-- Witness for C6_amended_factory at `v := "invalid"` and a concrete
    thrown construction error. -/
theorem C6_amended_factory_witness :
    resolveRouterImpl (some "invalid") = (.hono, true) ∧
    createRouterWithFactory (some "legacy")
      (α := Unit) (ε := String)
      { createHono := .ok (), createLegacy := Except.error "legacy init failed" } =
      Except.error "legacy init failed" :=
  ⟨C6_amended_factory.1 "invalid" (by decide) (by decide),
   (C6_amended_factory.2.2.1 Unit String "legacy init failed" (.ok ()) (.ok ())).1⟩

/-- A well-formed cookie pair cannot make the parsing step throw. -/
theorem cookieStep_ok (m : List (String × String)) (c : String)
    (h : cookieSegWellFormed c = true) :
    ∃ m', cookieStep (.ok m) c = .ok m' := by
  unfold cookieStep
  unfold cookieSegWellFormed at h
  dsimp only at h ⊢
  cases h0 : (strSplit (strTrim c) '=')[0]? with
  | none =>
    exact ⟨m, rfl⟩
  | some n =>
    cases h1 : (strSplit (strTrim c) '=')[1]? with
    | none =>
      exact ⟨m, rfl⟩
    | some v =>
      rw [h0, h1] at h
      dsimp only at h ⊢
      by_cases hnv : n ≠ "" ∧ v ≠ ""
      · rw [if_pos hnv] at h ⊢
        cases hdec : decodeURIComponent v with
        | ok dv =>
          exact ⟨setKeyStr m n dv, rfl⟩
        | error e =>
          rw [hdec] at h
          simp [Except.isOk, Except.toBool] at h
      · rw [if_neg hnv]
        exact ⟨m, rfl⟩

/-- Folding the cookie loop over well-formed pairs never throws. -/
theorem cookieFold_ok (segs : List String) (m : List (String × String))
    (h : segs.all cookieSegWellFormed = true) :
    (segs.foldl cookieStep (.ok m)).isOk = true := by
  induction segs generalizing m with
  | nil => rfl
  | cons c cs ih =>
    rw [List.all_cons, Bool.and_eq_true] at h
    obtain ⟨m', hm'⟩ := cookieStep_ok m c h.1
    rw [List.foldl_cons, hm']
    exact ih m' h.2

/-- C9 (amended): reading cookies never throws provided every surviving
    pair's value is a well-formed percent-encoding; a pair is split on
    every `=` and the value is the SECOND component (so `name=a=b` reads
    as value `a`, the text between the first and second `=`); pairs
    without an `=` are skipped; and reading a name with no surviving pair
    yields the empty-string cookie value. -/
theorem C9_amended_cookies :
    (∀ header : String, cookieHeaderWellFormed header = true →
      (parseCookiePairs header).isOk = true) ∧
    parseCookiePairs "name=a=b" = .ok [("name", "a")] ∧
    parseCookiePairs "a=1; flag; b=2" = .ok [("a", "1"), ("b", "2")] ∧
    (∀ (header : String) (m : List (String × String)) (name : String),
      parseCookiePairs header = .ok m → lookupStr m name = none →
      cookieRead m name = "") := by
  refine ⟨?_, rfl, rfl, ?_⟩
  · intro header h
    exact cookieFold_ok _ [] h
  · intro header m name _ hnone
    unfold cookieRead
    rw [hnone]

/-- Witness for C9_amended_cookies on a concrete well-formed header and a
    concrete unset name. -/
theorem C9_amended_cookies_witness :
    (parseCookiePairs "token=abc%20d; theme=dark").isOk = true ∧
    cookieRead [("token", "abc d")] "missing" = "" :=
  ⟨C9_amended_cookies.1 "token=abc%20d; theme=dark" (by decide),
   C9_amended_cookies.2.2.2 "token=abc%20d" [("token", "abc d")] "missing" rfl rfl⟩

/-- C10 (amended): `group` does copy the parent's middleware list into the
    short-lived group router at creation time, but that copy is never
    consulted at dispatch: group routes are merged into the parent's
    table and `handle` runs the parent's live middleware list, so a
    middleware registered via `use()` after `group()` returned DOES run
    for requests dispatched to routes registered inside the group — and
    middlewares registered before group creation run for them as well. -/
theorem C10_amended_group_middleware :
    (∀ (hd : Handler) (resp : Response) (req : Request) (rid : String),
      req.method = "GET" → req.path = "/g/r" →
      legacyHandle
        ((LegacyRouter.empty.group "/g" (fun g => g.addRoute "GET" "/r" hd none)).use
          (fun _ => .respond resp)) req rid = resp) ∧
    (∀ (hd : Handler) (resp : Response) (req : Request) (rid : String),
      req.method = "GET" → req.path = "/g/r" →
      legacyHandle
        ((LegacyRouter.empty.use (fun _ => .respond resp)).group "/g"
          (fun g => g.addRoute "GET" "/r" hd none)) req rid = resp) := by
  constructor
  · intro hd resp req rid hm hp
    obtain ⟨m, p, sp, hs, bd⟩ := req
    change m = "GET" at hm
    change p = "/g/r" at hp
    subst hm
    subst hp
    rfl
  · intro hd resp req rid hm hp
    obtain ⟨m, p, sp, hs, bd⟩ := req
    change m = "GET" at hm
    change p = "/g/r" at hp
    subst hm
    subst hp
    rfl

/-- Witness for C10_amended_group_middleware at a concrete handler,
    middleware response and request. -/
theorem C10_amended_group_middleware_witness :
    legacyHandle
      ((LegacyRouter.empty.group "/g" (fun g => g.addRoute "GET" "/r" okHandler none)).use
        (fun _ => .respond { status := 299, headers := [], body := none }))
      (simpleGet "/g/r") "rid-w10" = { status := 299, headers := [], body := none } :=
  C10_amended_group_middleware.1 okHandler
    { status := 299, headers := [], body := none } (simpleGet "/g/r") "rid-w10" rfl rfl

/-- `'Bearer ' + t` always passes the `startsWith('Bearer ')` test. -/
theorem bearer_startsWith (t : String) :
    strStartsWith ("Bearer " ++ t) "Bearer " = true := by
  cases t with
  | mk cs => rfl

/-- `substring(7)` recovers the token after the `Bearer ` marker. -/
theorem bearer_drop (t : String) : strDrop ("Bearer " ++ t) 7 = t := by
  cases t with
  | mk cs => rfl

/-- C8: when the verified payload's `id` claim coerces (numbers kept,
    strings through `parseInt(·, 10)`, anything else NaN) to a non-finite
    value, `deriveAuth` returns before the user lookup — the lookup flag
    is false — and the context comes back exactly as it went in, so
    `uid`, `username` and `admin` keep their pre-call values.  Both the
    header-token path and the cookie-fallback path are covered. -/
theorem C8_nonfinite_id_frame :
    (∀ (vf : JwtVerify) (db : List UserRow) (ctx : AuthCtx) (t : String)
        (payload : JwtPayload),
      ctx.authorizationHeader = some ("Bearer " ++ t) → t ≠ "" →
      vf t = some payload →
      (coerceProfileId (assocFind payload "id")).isFinite = false →
      deriveAuth (some vf) db ctx = ([t], false, ctx)) ∧
    (∀ (vf : JwtVerify) (db : List UserRow) (ctx : AuthCtx) (t : String)
        (payload : JwtPayload),
      ctx.authorizationHeader = none → ctx.cookieToken = some t → t ≠ "" →
      vf t = some payload →
      (coerceProfileId (assocFind payload "id")).isFinite = false →
      deriveAuth (some vf) db ctx = ([t], false, ctx)) := by
  constructor
  · intro vf db ctx t payload hauth ht hvf hfin
    cases hpid : coerceProfileId (assocFind payload "id") with
    | fin n =>
      rw [hpid] at hfin
      exact absurd hfin (by simp [JsNum.isFinite])
    | nan =>
      simp [deriveAuth, hauth, bearer_startsWith, bearer_drop, jsTruthy, ht, hvf, hpid]
    | inf =>
      simp [deriveAuth, hauth, bearer_startsWith, bearer_drop, jsTruthy, ht, hvf, hpid]
    | ninf =>
      simp [deriveAuth, hauth, bearer_startsWith, bearer_drop, jsTruthy, ht, hvf, hpid]
  · intro vf db ctx t payload hauth hcookie ht hvf hfin
    cases hpid : coerceProfileId (assocFind payload "id") with
    | fin n =>
      rw [hpid] at hfin
      exact absurd hfin (by simp [JsNum.isFinite])
    | nan =>
      simp [deriveAuth, hauth, hcookie, jsTruthy, ht, hvf, hpid]
    | inf =>
      simp [deriveAuth, hauth, hcookie, jsTruthy, ht, hvf, hpid]
    | ninf =>
      simp [deriveAuth, hauth, hcookie, jsTruthy, ht, hvf, hpid]

/-- Witness for C8_nonfinite_id_frame: a payload whose `id` is the string
    `not-a-number` leaves a fresh context untouched and skips the lookup. -/
theorem C8_nonfinite_id_frame_witness :
    deriveAuth (some (fun _ => some [("id", .vstr "not-a-number")]))
      [{ id := 7, username := "tester", permission := 1 }]
      { authorizationHeader := some "Bearer test-token", cookieToken := none,
        uid := none, username := none, admin := false } =
      (["test-token"], false,
        { authorizationHeader := some "Bearer test-token", cookieToken := none,
          uid := none, username := none, admin := false }) :=
  C8_nonfinite_id_frame.1 (fun _ => some [("id", .vstr "not-a-number")])
    [{ id := 7, username := "tester", permission := 1 }]
    { authorizationHeader := some "Bearer test-token", cookieToken := none,
      uid := none, username := none, admin := false }
    "test-token" [("id", .vstr "not-a-number")] rfl (by decide) rfl rfl

/-- C5: the header token is verified first; the cookie token is verified
    only when the header token is absent or failed AND differs from the
    header token.  When the header token X fails and a distinct cookie
    token Y verifies to a payload whose id resolves to a stored user,
    the context authenticates as that user (tokens verified in order
    [X, Y]); when header and cookie tokens coincide, at most one verify
    call is issued. -/
theorem C5_auth_precedence :
    (∀ (vf : JwtVerify) (db : List UserRow) (ctx : AuthCtx) (X Y : String)
        (payload : JwtPayload) (idVal : Int) (u : UserRow),
      ctx.authorizationHeader = some ("Bearer " ++ X) →
      ctx.cookieToken = some Y →
      X ≠ "" → Y ≠ "" → Y ≠ X →
      vf X = none →
      vf Y = some payload →
      coerceProfileId (assocFind payload "id") = .fin idVal →
      db.find? (fun r => r.id == idVal) = some u →
      (deriveAuth (some vf) db ctx).1 = [X, Y] ∧
      (deriveAuth (some vf) db ctx).2.1 = true ∧
      (deriveAuth (some vf) db ctx).2.2.uid = some u.id ∧
      u.id = idVal) ∧
    (∀ (vf : JwtVerify) (db : List UserRow) (ctx : AuthCtx) (T : String),
      ctx.authorizationHeader = some ("Bearer " ++ T) →
      ctx.cookieToken = some T →
      (deriveAuth (some vf) db ctx).1.length ≤ 1) := by
  constructor
  · intro vf db ctx X Y payload idVal u hauth hcookie hX hY hYX hvX hvY hpid hdb
    have hne : (some Y : Option String) ≠ some X := by simpa using hYX
    have hid : u.id = idVal := by
      have h := List.find?_some hdb
      simpa using h
    refine ⟨?_, ?_, ?_, hid⟩ <;>
      simp [deriveAuth, hauth, hcookie, bearer_startsWith, bearer_drop, jsTruthy,
        hX, hY, hne, hvX, hvY, hpid, hdb]
  · intro vf db ctx T hauth hcookie
    obtain ⟨ah, ct, u0, n0, a0⟩ := ctx
    change ah = _ at hauth
    change ct = _ at hcookie
    subst hauth
    subst hcookie
    by_cases hT : T = ""
    · subst hT
      exact Nat.zero_le 1
    · cases hvf : vf T with
      | none =>
        simp [deriveAuth, jsTruthy, hT, bearer_startsWith, bearer_drop, hvf]
      | some payload =>
        cases hpid : coerceProfileId (assocFind payload "id") with
        | fin idVal =>
          cases hdb : db.find? (fun r => r.id == idVal) <;>
            simp [deriveAuth, jsTruthy, hT, bearer_startsWith, bearer_drop,
              hvf, hpid, hdb]
        | nan =>
          simp [deriveAuth, jsTruthy, hT, bearer_startsWith, bearer_drop, hvf, hpid]
        | inf =>
          simp [deriveAuth, jsTruthy, hT, bearer_startsWith, bearer_drop, hvf, hpid]
        | ninf =>
          simp [deriveAuth, jsTruthy, hT, bearer_startsWith, bearer_drop, hvf, hpid]

/-- Witness for C5_auth_precedence with the spec's concrete scenario:
    header token X fails, distinct cookie token Y verifies to id '7', the
    user table holds user 7 — the context authenticates as user 7; and a
    shared token is verified at most once. -/
theorem C5_auth_precedence_witness :
    ((deriveAuth
        (some (fun t => if t = "Y" then some [("id", .vstr "7")] else none))
        [{ id := 7, username := "tester", permission := 1 }]
        { authorizationHeader := some "Bearer X", cookieToken := some "Y",
          uid := none, username := none, admin := false }).1 = ["X", "Y"] ∧
      (deriveAuth
        (some (fun t => if t = "Y" then some [("id", .vstr "7")] else none))
        [{ id := 7, username := "tester", permission := 1 }]
        { authorizationHeader := some "Bearer X", cookieToken := some "Y",
          uid := none, username := none, admin := false }).2.2.uid = some 7) ∧
    (deriveAuth (some (fun _ => none))
      [{ id := 7, username := "tester", permission := 1 }]
      { authorizationHeader := some "Bearer T", cookieToken := some "T",
        uid := none, username := none, admin := false }).1.length ≤ 1 := by
  have h := C5_auth_precedence.1
    (fun t => if t = "Y" then some [("id", .vstr "7")] else none)
    [{ id := 7, username := "tester", permission := 1 }]
    { authorizationHeader := some "Bearer X", cookieToken := some "Y",
      uid := none, username := none, admin := false }
    "X" "Y" [("id", .vstr "7")] 7 { id := 7, username := "tester", permission := 1 }
    rfl rfl (by decide) (by decide) (by decide) rfl rfl rfl rfl
  have h2 := C5_auth_precedence.2 (fun _ => none)
    [{ id := 7, username := "tester", permission := 1 }]
    { authorizationHeader := some "Bearer T", cookieToken := some "T",
      uid := none, username := none, admin := false }
    "T" rfl rfl
  exact ⟨⟨h.1, by rw [h.2.2.1]⟩, h2⟩

/-- The Allow-Origin header of the preflight response, as the source
    computes it (`request.headers.get('origin') || '*'`). -/
theorem preflight_origin (req : Request) :
    (buildPreflightResponse req).header "Access-Control-Allow-Origin" =
      some (match reqHeaderGet req "origin" with
            | some o => if o = "" then "*" else o
            | none => "*") := rfl

/-- C2 counterexample: the claim fails on two points.  A bare legacy
    adapter answers an unmatched OPTIONS request with 404, not 204 — its
    `handle` only routes preflight through the middleware chain, and with
    no middleware registered it falls through to route matching.  And an
    Origin header that is present but empty is echoed as `*`, not as the
    header's (empty) value, because of the `|| '*'` fallback. -/
theorem C2_counterexample :
    (legacyHandle LegacyRouter.empty (optionsReq "/unknown") "rid-c2").status = 404 ∧
    reqHeaderGet emptyOriginOptionsReq "origin" = some "" ∧
    (honoHandle HonoRouter.empty emptyOriginOptionsReq "rid-c2").header
      "Access-Control-Allow-Origin" = some "*" :=
  ⟨rfl, rfl, rfl⟩

/-- C2 (amended): every OPTIONS request is answered by the hono adapter,
    and by the legacy adapter whenever the base app's CORS middleware
    (modelled from the spec) heads its chain, with the shared preflight
    response: status 204, the four literal CORS headers, and
    Allow-Origin echoing a present NON-EMPTY Origin header and `*`
    otherwise. -/
theorem C2_amended_preflight :
    ∀ (req : Request) (rid : String) (h : HonoRouter) (lr : LegacyRouter)
      (rest : List Middleware),
      req.method = "OPTIONS" →
      lr.middlewares = corsMiddleware :: rest →
      honoHandle h req rid = buildPreflightResponse req ∧
      legacyHandle lr req rid = buildPreflightResponse req ∧
      (buildPreflightResponse req).status = 204 ∧
      (buildPreflightResponse req).body = none ∧
      (buildPreflightResponse req).header "Access-Control-Allow-Methods" =
        some "GET, POST, PUT, DELETE, PATCH, OPTIONS" ∧
      (buildPreflightResponse req).header "Access-Control-Allow-Headers" =
        some "content-type, authorization, x-csrf-token" ∧
      (buildPreflightResponse req).header "Access-Control-Max-Age" = some "600" ∧
      (buildPreflightResponse req).header "Access-Control-Allow-Credentials" =
        some "true" ∧
      (∀ o : String, reqHeaderGet req "origin" = some o → o ≠ "" →
        (buildPreflightResponse req).header "Access-Control-Allow-Origin" = some o) ∧
      (reqHeaderGet req "origin" = none →
        (buildPreflightResponse req).header "Access-Control-Allow-Origin" = some "*") := by
  intro req rid h lr rest hm hmw
  obtain ⟨routes, mws⟩ := lr
  change mws = _ at hmw
  subst hmw
  refine ⟨?_, ?_, rfl, rfl, rfl, rfl, rfl, rfl, ?_, ?_⟩
  · simp [honoHandle, hm]
  · obtain ⟨m, p, sp, hs, bd⟩ := req
    change m = _ at hm
    subst hm
    rfl
  · intro o ho hno
    rw [preflight_origin, ho]
    simp [hno]
  · intro ho
    rw [preflight_origin, ho]

/-- Witness for C2_amended_preflight: a legacy adapter whose chain starts
    with the CORS middleware answers a concrete OPTIONS request with the
    shared preflight response, echoing the non-empty Origin. -/
theorem C2_amended_preflight_witness :
    legacyHandle { routes := [], middlewares := [corsMiddleware] }
      originOptionsReq "rid-w2" = buildPreflightResponse originOptionsReq ∧
    (buildPreflightResponse originOptionsReq).header "Access-Control-Allow-Origin" =
      some "https://example.com" := by
  have h := C2_amended_preflight originOptionsReq "rid-w2" HonoRouter.empty
    { routes := [], middlewares := [corsMiddleware] } [] rfl rfl
  exact ⟨h.2.1, h.2.2.2.2.2.2.2.2.1 "https://example.com" rfl (by decide)⟩

/-- Folding error accumulation equals flat concatenation of the per-item
    contributions. -/
theorem foldl_append_eq_bind {α : Type} (f : α → List String) (l : List α) :
    ∀ acc : List String,
      l.foldl (fun errs kp => errs ++ f kp) acc = acc ++ l.flatMap f := by
  induction l with
  | nil => intro acc; simp
  | cons x xs ih => intro acc; simp [ih]

/-- The legacy validator on an object schema is exactly the concatenation
    of the per-declared-property checks, each fed only the data's value
    at that declared key. -/
theorem legacyValidateSchema_characterization
    (props : List (String × SchemaProp)) (data : JValue) :
    legacyValidateSchema (some { stype := some "object", properties := some props }) data =
      ((props.flatMap (fun kp => propChecks kp.1 kp.2 (schemaValueOf data kp.1))).isEmpty,
        props.flatMap (fun kp => propChecks kp.1 kp.2 (schemaValueOf data kp.1))) := by
  cases data <;>
    (unfold legacyValidateSchema
     dsimp only
     rw [if_pos (rfl : "object" = "object"), foldl_append_eq_bind]
     simp [schemaValueOf, assocFind, List.find?])

/-- The hono validator agrees with the same characterization. -/
theorem honoValidateSchema_characterization
    (props : List (String × SchemaProp)) (data : JValue) :
    honoValidateSchema (some { stype := some "object", properties := some props }) data =
      ((props.flatMap (fun kp => propChecks kp.1 kp.2 (schemaValueOf data kp.1))).isEmpty,
        props.flatMap (fun kp => propChecks kp.1 kp.2 (schemaValueOf data kp.1))) := by
  cases data <;>
    (unfold honoValidateSchema
     dsimp only
     rw [if_pos (rfl : "object" = "object"), foldl_append_eq_bind]
     simp [schemaValueOf, assocFind, List.find?])

/-- A present property contributes exactly one error when its value
    mismatches the declared basic type, and none otherwise. -/
theorem propChecks_present (key : String) (prop : SchemaProp) (v : JValue) :
    propChecks key prop (some v) =
      (match prop.type with
       | some t => if basicTypeTest t v then [] else [typeErrMsg key t]
       | none => []) := by
  obtain ⟨ptype, popt⟩ := prop
  cases ptype with
  | none => simp [propChecks]
  | some t =>
    cases t <;> cases v <;>
      simp [propChecks, basicTypeTest, typeErrMsg,
        JValue.isStr, JValue.isNum, JValue.isBool, JValue.isArr]

/-- An absent property contributes exactly one error when it is required,
    and none when it is optional. -/
theorem propChecks_absent (key : String) (prop : SchemaProp) :
    propChecks key prop none = if prop.optional then [] else [key ++ " is required"] := by
  obtain ⟨ptype, popt⟩ := prop
  cases popt <;> simp [propChecks]

/-- Appending an entry under a key that is not `key` does not change the
    object property read at `key`. -/
theorem assocFind_append_ne (entries : List (String × JValue)) (extra key : String)
    (v : JValue) (h : key ≠ extra) :
    assocFind (entries ++ [(extra, v)]) key = assocFind entries key := by
  have hne : (extra == key) = false := by
    rw [beq_eq_false_iff_ne]
    exact fun he => h he.symm
  induction entries with
  | nil =>
    simp [assocFind, List.find?, hne]
  | cons e es ih =>
    by_cases he : (e.1 == key) = true
    · simp [assocFind, List.find?, he]
    · have he' : (e.1 == key) = false := by rwa [Bool.not_eq_true] at he
      simp only [List.cons_append, assocFind, List.find?, he'] at ih ⊢
      exact ih

/-- Data keys not declared in the schema never change the validation
    outcome: appending an undeclared entry leaves every declared lookup
    alone. -/
theorem flatMap_checks_append_ne (props : List (String × SchemaProp))
    (entries : List (String × JValue)) (extra : String) (v : JValue)
    (hnd : ∀ kp ∈ props, kp.1 ≠ extra) :
    (props.flatMap fun kp =>
        propChecks kp.1 kp.2 (schemaValueOf (JValue.vobj (entries ++ [(extra, v)])) kp.1)) =
      props.flatMap fun kp =>
        propChecks kp.1 kp.2 (schemaValueOf (JValue.vobj entries) kp.1) := by
  induction props with
  | nil => rfl
  | cons kp kps ih =>
    have h1 : kp.1 ≠ extra := hnd kp (List.mem_cons_self kp kps)
    have h2 : schemaValueOf (JValue.vobj (entries ++ [(extra, v)])) kp.1 =
        schemaValueOf (JValue.vobj entries) kp.1 := by
      simp only [schemaValueOf]
      exact assocFind_append_ne entries extra kp.1 v h1
    simp only [List.flatMap_cons, h2,
      ih (fun x hx => hnd x (List.mem_cons_of_mem kp hx))]

/-- C7: validation iterates only the schema's declared properties and
    accumulates every error: both validators equal the concatenation,
    over the declared properties, of the per-property checks — one
    type-mismatch error for a present value of the wrong basic type, one
    required error for an absent non-optional property; an undeclared
    data key never contributes; `(empty)` against the title/content
    schema yields exactly the two required-field messages (≥ 2) and a 400
    through the pipeline, while `(title, content)` validates and the
    request reaches the handler in both adapters. -/
theorem C7_schema_validation :
    (∀ (props : List (String × SchemaProp)) (data : JValue),
      legacyValidateSchema (some { stype := some "object", properties := some props }) data =
        ((props.flatMap fun kp => propChecks kp.1 kp.2 (schemaValueOf data kp.1)).isEmpty,
          props.flatMap fun kp => propChecks kp.1 kp.2 (schemaValueOf data kp.1)) ∧
      honoValidateSchema (some { stype := some "object", properties := some props }) data =
        legacyValidateSchema (some { stype := some "object", properties := some props }) data) ∧
    (∀ (key : String) (prop : SchemaProp) (v : JValue),
      propChecks key prop (some v) =
        (match prop.type with
         | some t => if basicTypeTest t v then [] else [typeErrMsg key t]
         | none => [])) ∧
    (∀ (key : String) (prop : SchemaProp),
      propChecks key prop none = if prop.optional then [] else [key ++ " is required"]) ∧
    (∀ (props : List (String × SchemaProp)) (entries : List (String × JValue))
        (extra : String) (v : JValue),
      (∀ kp ∈ props, kp.1 ≠ extra) →
      legacyValidateSchema (some { stype := some "object", properties := some props })
          (.vobj (entries ++ [(extra, v)])) =
        legacyValidateSchema (some { stype := some "object", properties := some props })
          (.vobj entries)) ∧
    legacyValidateSchema (some titleContentSchema) (.vobj []) =
      (false, ["title is required", "content is required"]) ∧
    honoValidateSchema (some titleContentSchema) (.vobj []) =
      (false, ["title is required", "content is required"]) ∧
    2 ≤ (legacyValidateSchema (some titleContentSchema) (.vobj [])).2.length ∧
    (legacyHandle legacySchemaRouter postEmptyReq "rid-c7").status = 400 ∧
    legacyHandle legacySchemaRouter postEmptyReq "rid-c7" =
      handleError (.validation "Validation failed"
        (some ["title is required", "content is required"])) "rid-c7" ∧
    (legacyHandle legacySchemaRouter postValidReq "rid-c7").status = 200 ∧
    (legacyHandle legacySchemaRouter postValidReq "rid-c7").body = some "\"handled\"" ∧
    (honoHandle honoSchemaRouter postEmptyReq "rid-c7").status = 400 ∧
    (honoHandle honoSchemaRouter postValidReq "rid-c7").status = 200 ∧
    (honoHandle honoSchemaRouter postValidReq "rid-c7").body = some "\"handled\"" := by
  refine ⟨?_, propChecks_present, propChecks_absent, ?_, rfl, rfl, by decide,
    rfl, rfl, rfl, rfl, rfl, rfl, rfl⟩
  · intro props data
    exact ⟨legacyValidateSchema_characterization props data,
      by rw [honoValidateSchema_characterization, legacyValidateSchema_characterization]⟩
  · intro props entries extra v hnd
    rw [legacyValidateSchema_characterization, legacyValidateSchema_characterization,
      flatMap_checks_append_ne props entries extra v hnd]

/-- Witness for C7_schema_validation: the characterization at the
    title/content schema and empty data, and undeclared-key invariance at
    a concrete extra key. -/
theorem C7_schema_validation_witness :
    legacyValidateSchema (some titleContentSchema)
        (.vobj ([("title", .vstr "T"), ("content", .vstr "C")] ++ [("extra", .vbool true)])) =
      legacyValidateSchema (some titleContentSchema)
        (.vobj [("title", .vstr "T"), ("content", .vstr "C")]) ∧
    propChecks "title" { type := some .string, optional := false } (some (.vnum .nan)) =
      ["title must be a string"] := by
  constructor
  · exact C7_schema_validation.2.2.2.1
      [("title", { type := some .string, optional := false }),
       ("content", { type := some .string, optional := false })]
      [("title", .vstr "T"), ("content", .vstr "C")] "extra" (.vbool true) (by decide)
  · rw [C7_schema_validation.2.1 "title" { type := some .string, optional := false } (.vnum .nan)]
    rfl
